import Mathlib

/-!
# Verification of the online-retail CLV notebook's internal logic

This file embeds the computational content of
`self-paced-labs/vertex-ai/vertex-ai-qwikstart/lab_exercise.ipynb`:
the two baseline BigQuery queries (the `day_intervals` / `predicted_clv`
CTEs and the MAE/MSE/RMSE aggregation), the split-based subset selection,
the custom `rmse` metric, and — where the repository's referenced helper
script `utils/data_download.py` is not part of the sources — the
spec-described feature-engineering pipeline, and proves the specified
properties about them.

Numeric columns are modelled as `ℚ` (BigQuery FLOAT64 arithmetic on the
values at hand is exact rational arithmetic for the claims considered;
`SQRT` alone lands in `ℝ`), SQL `NULL`able expressions as `Option`,
and SQL dates as a calendar-date structure with a civil day-number
conversion mirroring `DATE_DIFF(_, _, DAY)`.
-/

namespace OnlineRetailCLV

/-! ## Calendar dates and DATE_DIFF -/

/-- A calendar date, as in BigQuery `DATE` literals `DATE('2011-09-01')`. -/
structure Date where
  year : Nat
  month : Nat
  day : Nat
deriving DecidableEq

/-- Civil-calendar day number (days since 1970-01-01, proleptic Gregorian),
the standard days-from-civil computation used to realise day differences. -/
def Date.toDays (d : Date) : Int :=
  let y : Int := if d.month ≤ 2 then (d.year : Int) - 1 else (d.year : Int)
  let era : Int := (if 0 ≤ y then y else y - 399) / 400
  let yoe : Int := y - era * 400
  let mp : Int := ((d.month : Int) + 9) % 12
  let doy : Int := (153 * mp + 2) / 5 + (d.day : Int) - 1
  let doe : Int := yoe * 365 + yoe / 4 - yoe / 100 + doy
  era * 146097 + doe - 719468

/-- `DATE_DIFF(a, b, DAY)`: the signed number of days from `b` to `a`. -/
def dateDiff (a b : Date) : Int :=
  a.toDays - b.toDays

/-! ## Table rows

The baseline queries read `online_retail.online_retail_clv_clean`
(of which they reference the columns `customer_id` and `order_date`)
and `online_retail.online_retail_clv_ml` (one row per customer with the
RFM features, target and split). -/

/-- The data split tags appearing in the `data_split` column. -/
inductive Split where
  | TRAIN
  | VALIDATE
  | TEST
deriving DecidableEq

/-- A row of the clean table, restricted to the columns the baseline
queries reference (`customer_id`, `order_date`). -/
structure CleanRow where
  customer_id : Nat
  order_date : Date
deriving DecidableEq

/-- A row of the ML table (`online_retail_clv_ml`). -/
structure MLRow where
  customer_id : Nat
  customer_country : String
  n_purchases : Nat
  avg_purchase_size : ℚ
  avg_purchase_revenue : ℚ
  customer_age : Int
  days_since_last_purchase : Int
  target_monetary_value_3M : ℚ
  data_split : Split
deriving DecidableEq

/-- A row of the `day_intervals` CTE.  `target_days` is a non-NULL
constant expression; `feature_days` is `NULL` exactly when
`MIN(order_date)` is (which cannot happen for a non-empty group, but the
SQL type is nullable, so we keep `Option`). -/
structure DayInterval where
  customer_id : Nat
  target_days : Int
  feature_days : Option Int
deriving DecidableEq

/-- The `day_intervals` CTE: per `customer_id` of the clean table,
`target_days = DATE_DIFF(DATE('2011-12-01'), DATE('2011-09-01'), DAY)` and
`feature_days = DATE_DIFF(DATE('2011-09-01'), MIN(order_date), DAY)`. -/
def dayIntervals (clean : List CleanRow) : List DayInterval :=
  ((clean.map (fun r => r.customer_id)).dedup).map (fun cid =>
    { customer_id := cid
      target_days := dateDiff ⟨2011, 12, 1⟩ ⟨2011, 9, 1⟩
      feature_days :=
        (((clean.filter (fun r => r.customer_id == cid)).map
            (fun r => r.order_date.toDays)).min?).map
          (fun m => (Date.mk 2011 9 1).toDays - m) })

/-! ## The joins and the `predicted_clv` CTE -/

/-- A row of the join of the ML table with `day_intervals` on
`customer_id`; `di = none` models the NULL-extended row of a
`LEFT JOIN` miss. -/
structure JoinRow where
  ml : MLRow
  di : Option DayInterval
deriving DecidableEq

/-- The join rows one ML row contributes under the `LEFT JOIN`: the
matching `day_intervals` rows, or a single NULL-extended row when there
is no match. -/
def leftRowsOf (di : List DayInterval) (m : MLRow) : List JoinRow :=
  let ms := di.filter (fun d => d.customer_id == m.customer_id)
  if ms.isEmpty then [⟨m, none⟩] else ms.map (fun d => ⟨m, some d⟩)

/-- `online_retail_clv_ml LEFT JOIN day_intervals USING(customer_id)`. -/
def leftJoinRows (ml : List MLRow) (di : List DayInterval) : List JoinRow :=
  ml.flatMap (leftRowsOf di)

/-- `online_retail_clv_ml INNER JOIN day_intervals USING(customer_id)`. -/
def innerJoinRows (ml : List MLRow) (di : List DayInterval) : List JoinRow :=
  ml.flatMap (fun m =>
    (di.filter (fun d => d.customer_id == m.customer_id)).map
      (fun d => ⟨m, some d⟩))

/-- `SAFE_DIVIDE(x, y)`: `NULL` on division by zero. -/
def safeDivide (x y : ℚ) : Option ℚ :=
  if y = 0 then none else some (x / y)

/-- `COUNT(n_purchases)` over a group: `n_purchases` is a non-NULL
column of the ML table, so this counts every row of the group. -/
def countNPurchases (g : List JoinRow) : Nat :=
  g.length

/-- `COUNT(target_days)` over a group: `target_days` is NULL exactly on
LEFT-JOIN misses, so this counts the rows with a `day_intervals` match. -/
def countTargetDays (g : List JoinRow) : Nat :=
  (g.filter (fun j => j.di.isSome)).length

/-- `COUNT(feature_days)` over a group: counts rows whose
`feature_days` value is non-NULL. -/
def countFeatureDays (g : List JoinRow) : Nat :=
  (g.filter (fun j => (j.di.bind (fun d => d.feature_days)).isSome)).length

/-- `AVG(avg_purchase_revenue)` over a group (the column is non-NULL). -/
def avgPurchaseRevenue (g : List JoinRow) : ℚ :=
  ((g.map (fun j => j.ml.avg_purchase_revenue)).sum) / (g.length : ℚ)

/-- The ratio term
`SAFE_DIVIDE(COUNT(target_days), COUNT(feature_days))` of the baseline
formula. -/
def ratioTerm (g : List JoinRow) : Option ℚ :=
  safeDivide (countTargetDays g : ℚ) (countFeatureDays g : ℚ)

/-- `AVG(avg_purchase_revenue) * (COUNT(n_purchases) * (1 +
SAFE_DIVIDE(COUNT(target_days), COUNT(feature_days))))`, the
`predicted_monetary_value_3M` of one `GROUP BY customer_id` group;
`NULL` (from `SAFE_DIVIDE`) propagates through the arithmetic. -/
def groupPredicted (g : List JoinRow) : Option ℚ :=
  (ratioTerm g).map (fun r =>
    avgPurchaseRevenue g * ((countNPurchases g : ℚ) * (1 + r)))

/-- `SUM(target_monetary_value_3M)` of one group. -/
def groupTargetValue (g : List JoinRow) : ℚ :=
  (g.map (fun j => j.ml.target_monetary_value_3M)).sum

/-- A row of the `predicted_clv` CTE. -/
structure ClvRow where
  customer_id : Nat
  predicted_monetary_value_3M : Option ℚ
  target_monetary_value_3M : ℚ
deriving DecidableEq

/-- The `GROUP BY customer_id` group of a joined row set. -/
def joinGroup (rows : List JoinRow) (cid : Nat) : List JoinRow :=
  rows.filter (fun j => j.ml.customer_id == cid)

/-- The `predicted_clv` CTE over an already-joined row set: one output
row per distinct `customer_id`. -/
def predictedClv (rows : List JoinRow) : List ClvRow :=
  ((rows.map (fun j => j.ml.customer_id)).dedup).map (fun cid =>
    { customer_id := cid
      predicted_monetary_value_3M := groupPredicted (joinGroup rows cid)
      target_monetary_value_3M := groupTargetValue (joinGroup rows cid) })

/-- The predicted value the baseline metrics query (LEFT JOIN variant)
computes for customer `cid`. -/
def predictedFor (ml : List MLRow) (di : List DayInterval) (cid : Nat) :
    Option ℚ :=
  groupPredicted (joinGroup (leftJoinRows ml di) cid)

/-! ## The baseline metrics SELECT -/

/-- The residuals `predicted_monetary_value_3M - target_monetary_value_3M`
entering the metric aggregates; rows with a `NULL` predicted value
contribute `NULL` and are skipped by `AVG`. -/
def residuals (rows : List ClvRow) : List ℚ :=
  rows.filterMap (fun r =>
    r.predicted_monetary_value_3M.map
      (fun p => p - r.target_monetary_value_3M))

/-- `AVG(ABS(predicted_monetary_value_3M - target_monetary_value_3M))`
(before the final `ROUND(_, 2)`). -/
def baselineMAE (rows : List ClvRow) : ℚ :=
  ((residuals rows).map (fun e => |e|)).sum / ((residuals rows).length : ℚ)

/-- `AVG(POW(predicted_monetary_value_3M - target_monetary_value_3M, 2))`
(before the final `ROUND(_, 2)`). -/
def baselineMSE (rows : List ClvRow) : ℚ :=
  ((residuals rows).map (fun e => e ^ 2)).sum / ((residuals rows).length : ℚ)

/-- `SQRT(AVG(POW(predicted_monetary_value_3M - target_monetary_value_3M,
2)))` (before the final `ROUND(_, 2)`). -/
noncomputable def baselineRMSE (rows : List ClvRow) : ℝ :=
  Real.sqrt
    ((((residuals rows).map (fun e => e ^ 2)).sum /
        ((residuals rows).length : ℚ) : ℚ) : ℝ)

/-- BigQuery `ROUND(x, 2)`: round to 2 decimals, halfway cases away
from zero. -/
noncomputable def bqRound2 (x : ℝ) : ℝ :=
  if 0 ≤ x then ((⌊x * 100 + 1 / 2⌋ : ℤ) : ℝ) / 100
  else ((⌈x * 100 - 1 / 2⌉ : ℤ) : ℝ) / 100

/-! ## The spec-side formula and group-structure lemmas -/

/-- The per-customer predicted value exactly as the specification words
it: `avg_purchase_revenue × n_purchases × (1 + target_days /
feature_days)`.  Kept separate from the source-derived `groupPredicted`
so the two can be compared. -/
def specPredictedValue (avg_purchase_revenue n_purchases target_days
    feature_days : ℚ) : ℚ :=
  avg_purchase_revenue * n_purchases * (1 + target_days / feature_days)

lemma ml_of_mem_leftRowsOf {di : List DayInterval} {m : MLRow}
    {j : JoinRow} (hj : j ∈ leftRowsOf di m) : j.ml = m := by
  unfold leftRowsOf at hj
  by_cases h :
      (di.filter (fun d => d.customer_id == m.customer_id)).isEmpty
  · simp only [h, if_true] at hj
    simp only [List.mem_singleton] at hj
    subst hj; rfl
  · simp only [h, if_false] at hj
    obtain ⟨d, -, rfl⟩ := List.mem_map.mp hj
    rfl

lemma leftRowsOf_ne_nil (di : List DayInterval) (m : MLRow) :
    leftRowsOf di m ≠ [] := by
  unfold leftRowsOf
  by_cases h :
      (di.filter (fun d => d.customer_id == m.customer_id)).isEmpty
  · simp [h]
  · have h' : di.filter (fun d => d.customer_id == m.customer_id) ≠ [] := by
      intro hnil; rw [hnil] at h; exact h rfl
    simp [h', List.isEmpty_eq_false.mpr h']

lemma filter_leftRowsOf (di : List DayInterval) (m : MLRow) (cid : Nat) :
    (leftRowsOf di m).filter (fun j => j.ml.customer_id == cid) =
      if m.customer_id == cid then leftRowsOf di m else [] := by
  by_cases h : m.customer_id == cid
  · rw [if_pos h, List.filter_eq_self]
    intro j hj
    rw [ml_of_mem_leftRowsOf hj]
    exact h
  · rw [if_neg h, List.filter_eq_nil_iff]
    intro j hj
    rw [ml_of_mem_leftRowsOf hj]
    exact h

lemma flatMap_if_eq_filter_flatMap {α β : Type} (l : List α)
    (p : α → Bool) (f : α → List β) :
    (l.flatMap fun a => if p a then f a else []) =
      (l.filter p).flatMap f := by
  induction l with
  | nil => rfl
  | cons a t ih =>
      by_cases h : p a
      · simp [List.filter_cons, h, ih]
      · simp [List.filter_cons, h, ih]

/-- The `GROUP BY customer_id` group of the LEFT JOIN is the join of the
ML rows with that `customer_id`. -/
lemma joinGroup_leftJoinRows (ml : List MLRow) (di : List DayInterval)
    (cid : Nat) :
    joinGroup (leftJoinRows ml di) cid =
      leftJoinRows (ml.filter (fun m => m.customer_id == cid)) di := by
  unfold joinGroup leftJoinRows
  rw [List.filter_flatMap]
  rw [← flatMap_if_eq_filter_flatMap]
  apply List.flatMap_congr
  intro m _
  exact filter_leftRowsOf di m cid

/-- When exactly one ML row and exactly one `day_intervals` row carry a
given `customer_id`, that customer's group of the LEFT JOIN is the
single paired row. -/
lemma joinGroup_singleton {ml : List MLRow} {di : List DayInterval}
    {cid : Nat} {m0 : MLRow} {d0 : DayInterval}
    (hm : ml.filter (fun m => m.customer_id == cid) = [m0])
    (hd : di.filter (fun d => d.customer_id == cid) = [d0]) :
    joinGroup (leftJoinRows ml di) cid = [⟨m0, some d0⟩] := by
  have hm0 : m0.customer_id = cid := by
    have : m0 ∈ ml.filter (fun m => m.customer_id == cid) := by
      rw [hm]; exact List.mem_singleton_self m0
    simpa using (List.mem_filter.mp this).2
  rw [joinGroup_leftJoinRows, hm]
  show leftRowsOf di m0 ++ [] = [⟨m0, some d0⟩]
  rw [List.append_nil]
  unfold leftRowsOf
  rw [hm0, hd]
  simp

/-- The group aggregates of a single matched join row whose
`feature_days` is non-NULL: both counts are `1`, the ratio term is
`1/1 = 1`, and the predicted value collapses to
`avg_purchase_revenue * 2`. -/
lemma groupPredicted_pair (m0 : MLRow) (d0 : DayInterval)
    (hf : d0.feature_days.isSome) :
    countTargetDays [⟨m0, some d0⟩] = 1 ∧
    countFeatureDays [⟨m0, some d0⟩] = 1 ∧
    ratioTerm [⟨m0, some d0⟩] = some 1 ∧
    groupPredicted [⟨m0, some d0⟩] =
      some (m0.avg_purchase_revenue * 2) := by
  have hT : countTargetDays [(⟨m0, some d0⟩ : JoinRow)] = 1 := by
    simp [countTargetDays]
  have hF : countFeatureDays [(⟨m0, some d0⟩ : JoinRow)] = 1 := by
    simp [countFeatureDays, List.filter, hf]
  have hR : ratioTerm [(⟨m0, some d0⟩ : JoinRow)] = some 1 := by
    rw [ratioTerm, hT, hF]
    norm_num [safeDivide]
  refine ⟨hT, hF, hR, ?_⟩
  rw [groupPredicted, hR]
  simp only [Option.map_some']
  congr 1
  simp only [countNPurchases, avgPurchaseRevenue, List.map_cons,
    List.map_nil, List.sum_cons, List.sum_nil, List.length_singleton]
  ring

/-! ## Concrete example tables -/

/-- A one-customer clean table: customer 7 first purchased on
2011-07-17, i.e. 46 days before the feature-window end 2011-09-01. -/
def exClean1 : List CleanRow :=
  [⟨7, ⟨2011, 7, 17⟩⟩]

/-- The matching one-customer ML table: customer 7 with `n_purchases = 3`
and `avg_purchase_revenue = 10`. -/
def exMl1 : List MLRow :=
  [⟨7, "United Kingdom", 3, 5, 10, 83, 12, 100, Split.TRAIN⟩]

/-! ## C1: the per-customer baseline formula -/

/-- C1 (counterexample): the claim "predicted value equals
`avg_purchase_revenue × n_purchases × (1 + target_days / feature_days)`"
fails on the code.  For customer 7 (one qualifying order, `feature_days
= 46 > 0`, `n_purchases = 3`, `avg_purchase_revenue = 10`) the query
computes `10 * (1 * (1 + 1/1)) = 20`, while the spec formula gives
`10 * 3 * (1 + 91/46) = 2055/23 ≠ 20`: the SQL multiplies row counts,
not the column values. -/
theorem baseline_predicted_ne_spec_formula :
    dayIntervals exClean1 =
      [{ customer_id := 7, target_days := 91, feature_days := some 46 }] ∧
    (0 : Int) < 46 ∧
    predictedFor exMl1 (dayIntervals exClean1) 7 = some 20 ∧
    specPredictedValue 10 3 91 46 ≠ 20 := by
  refine ⟨rfl, by norm_num, ?_, by norm_num [specPredictedValue]⟩
  show groupPredicted
      (joinGroup (leftJoinRows exMl1 (dayIntervals exClean1)) 7) = some 20
  have hg : joinGroup (leftJoinRows exMl1 (dayIntervals exClean1)) 7 =
      [⟨⟨7, "United Kingdom", 3, 5, 10, 83, 12, 100, Split.TRAIN⟩,
        some ⟨7, 91, some 46⟩⟩] := rfl
  rw [hg,
    (groupPredicted_pair
      ⟨7, "United Kingdom", 3, 5, 10, 83, 12, 100, Split.TRAIN⟩
      ⟨7, 91, some 46⟩ rfl).2.2.2]
  norm_num

/-- C1 (amended): for every customer appearing exactly once in the ML
table and exactly once in `day_intervals` with non-NULL `feature_days`,
the baseline query's predicted value is `avg_purchase_revenue * 2`:
`AVG(avg_purchase_revenue)` times `COUNT(n_purchases) = 1` times
`1 + SAFE_DIVIDE(COUNT(target_days), COUNT(feature_days)) = 1 + 1/1`. -/
theorem baseline_predicted_eq_twice_avg_revenue
    (ml : List MLRow) (di : List DayInterval) (cid : Nat)
    (m0 : MLRow) (d0 : DayInterval)
    (hm : ml.filter (fun m => m.customer_id == cid) = [m0])
    (hd : di.filter (fun d => d.customer_id == cid) = [d0])
    (hf : d0.feature_days.isSome) :
    predictedFor ml di cid = some (m0.avg_purchase_revenue * 2) := by
  rw [predictedFor, joinGroup_singleton hm hd]
  exact (groupPredicted_pair m0 d0 hf).2.2.2

/-- Witness for C1 (amended) at the concrete tables `exMl1`/`exClean1`. -/
theorem baseline_predicted_eq_twice_avg_revenue_witness :
    exMl1.filter (fun m => m.customer_id == 7) =
      [⟨7, "United Kingdom", 3, 5, 10, 83, 12, 100, Split.TRAIN⟩] ∧
    (dayIntervals exClean1).filter (fun d => d.customer_id == 7) =
      [⟨7, 91, some 46⟩] ∧
    (DayInterval.mk 7 91 (some 46)).feature_days.isSome = true ∧
    predictedFor exMl1 (dayIntervals exClean1) 7 = some ((10 : ℚ) * 2) :=
  ⟨rfl, rfl, rfl,
    baseline_predicted_eq_twice_avg_revenue exMl1 (dayIntervals exClean1)
      7 ⟨7, "United Kingdom", 3, 5, 10, 83, 12, 100, Split.TRAIN⟩
      ⟨7, 91, some 46⟩ rfl rfl rfl⟩

/-! ## C4: the ratio term divides row counts -/

/-- C4: in the baseline queries the ratio term is
`SAFE_DIVIDE(COUNT(target_days), COUNT(feature_days))` — a quotient of
row counts.  For any customer contributing exactly one (non-NULL) row
to each joined table both counts are `1` and the ratio term is the
constant `1`, independent of the actual `target_days`/`feature_days`
values. -/
theorem ratio_term_divides_row_counts
    (ml : List MLRow) (di : List DayInterval) (cid : Nat)
    (m0 : MLRow) (d0 : DayInterval)
    (hm : ml.filter (fun m => m.customer_id == cid) = [m0])
    (hd : di.filter (fun d => d.customer_id == cid) = [d0])
    (hf : d0.feature_days.isSome) :
    countTargetDays (joinGroup (leftJoinRows ml di) cid) = 1 ∧
    countFeatureDays (joinGroup (leftJoinRows ml di) cid) = 1 ∧
    ratioTerm (joinGroup (leftJoinRows ml di) cid) = some 1 := by
  rw [joinGroup_singleton hm hd]
  have h := groupPredicted_pair m0 d0 hf
  exact ⟨h.1, h.2.1, h.2.2.1⟩

/-- Witness for C4 at the concrete tables `exMl1`/`exClean1`. -/
theorem ratio_term_divides_row_counts_witness :
    exMl1.filter (fun m => m.customer_id == 7) =
      [⟨7, "United Kingdom", 3, 5, 10, 83, 12, 100, Split.TRAIN⟩] ∧
    (dayIntervals exClean1).filter (fun d => d.customer_id == 7) =
      [⟨7, 91, some 46⟩] ∧
    ratioTerm (joinGroup (leftJoinRows exMl1 (dayIntervals exClean1)) 7) =
      some 1 :=
  ⟨rfl, rfl,
    (ratio_term_divides_row_counts exMl1 (dayIntervals exClean1) 7
      ⟨7, "United Kingdom", 3, 5, 10, 83, 12, 100, Split.TRAIN⟩
      ⟨7, 91, some 46⟩ rfl rfl rfl).2.2⟩

/-! ## C3: customers with `feature_days = 0` are excluded -/

/-- Any join row's ML part is a row of the ML table. -/
lemma ml_mem_of_mem_leftJoinRows {ml : List MLRow} {di : List DayInterval}
    {j : JoinRow} (hj : j ∈ leftJoinRows ml di) : j.ml ∈ ml := by
  obtain ⟨m, hm, hjm⟩ := List.mem_flatMap.mp hj
  rw [ml_of_mem_leftRowsOf hjm]
  exact hm

/-- C3: a customer whose `feature_days` is 0 first purchased exactly on
the feature-window boundary 2011-09-01 and so has no order before it;
since the ML table holds one record per customer with at least one
qualifying order in the feature window (every ML customer has an order
dated before 2011-09-01 — the pipeline consistency of §4.4), such a
customer has no ML row, hence no `predicted_clv` row: it is excluded
from the MAE/MSE/RMSE aggregation and no predicted value — infinite,
NaN or otherwise — is assigned to it. -/
theorem featureDays_zero_customer_excluded
    (clean : List CleanRow) (ml : List MLRow)
    (hpipe : ∀ m ∈ ml, ∃ r ∈ clean, r.customer_id = m.customer_id ∧
      r.order_date.toDays < (Date.mk 2011 9 1).toDays)
    (cid : Nat) (d : DayInterval) (hd : d ∈ dayIntervals clean)
    (hcid : d.customer_id = cid) (hf : d.feature_days = some 0) :
    (∀ m ∈ ml, m.customer_id ≠ cid) ∧
    (∀ row ∈ predictedClv (leftJoinRows ml (dayIntervals clean)),
      row.customer_id ≠ cid) := by
  obtain ⟨cid0, hm0, rfl⟩ := List.mem_map.mp hd
  have hcid' : cid0 = cid := hcid
  subst hcid'
  have hf' : (((clean.filter (fun r => r.customer_id == cid0)).map
      (fun r => r.order_date.toDays)).min?).map
        (fun m => (Date.mk 2011 9 1).toDays - m) = some 0 := hf
  obtain ⟨mn, hmn, hmn0⟩ := Option.map_eq_some'.mp hf'
  have hlb := (List.le_min?_iff (fun a b c : Int => le_min_iff) hmn).mp
    (le_refl mn)
  have hnone : ∀ m ∈ ml, m.customer_id ≠ cid0 := by
    intro m hm heq
    obtain ⟨r, hr, hrc, hrlt⟩ := hpipe m hm
    have hrin : r.order_date.toDays ∈
        (clean.filter (fun x => x.customer_id == cid0)).map
          (fun x => x.order_date.toDays) :=
      List.mem_map_of_mem _
        (List.mem_filter.mpr ⟨hr, by simp [hrc, heq]⟩)
    have hge := hlb _ hrin
    omega
  refine ⟨hnone, ?_⟩
  intro row hrow heq
  obtain ⟨c, hc, rfl⟩ := List.mem_map.mp hrow
  have hc' : c ∈ (leftJoinRows ml (dayIntervals clean)).map
      (fun j => j.ml.customer_id) := List.mem_dedup.mp hc
  obtain ⟨j, hj, hjc⟩ := List.mem_map.mp hc'
  exact hnone j.ml (ml_mem_of_mem_leftJoinRows hj) (by rw [hjc]; exact heq)

/-- A clean table with a boundary customer (customer 5, sole purchase
exactly on 2011-09-01, so `feature_days = 0`) alongside customer 7. -/
def exCleanB : List CleanRow :=
  [⟨5, ⟨2011, 9, 1⟩⟩, ⟨7, ⟨2011, 7, 17⟩⟩]

/-- Witness for C3: with the ML table `exMl1` (customer 7 only — the
pipeline produces no record for boundary customer 5), customer 5 has
`feature_days = 0` and appears in neither the ML table nor the
`predicted_clv` output. -/
theorem featureDays_zero_customer_excluded_witness :
    (∀ m ∈ exMl1, ∃ r ∈ exCleanB, r.customer_id = m.customer_id ∧
      r.order_date.toDays < (Date.mk 2011 9 1).toDays) ∧
    (⟨5, 91, some 0⟩ : DayInterval) ∈ dayIntervals exCleanB ∧
    (DayInterval.mk 5 91 (some 0)).customer_id = 5 ∧
    (DayInterval.mk 5 91 (some 0)).feature_days = some 0 ∧
    ((∀ m ∈ exMl1, m.customer_id ≠ 5) ∧
      (∀ row ∈ predictedClv (leftJoinRows exMl1 (dayIntervals exCleanB)),
        row.customer_id ≠ 5)) :=
  ⟨by decide, by decide, rfl, rfl,
    featureDays_zero_customer_excluded exCleanB exMl1 (by decide) 5
      ⟨5, 91, some 0⟩ (by decide) rfl rfl⟩

/-! ## C5: the contents of `day_intervals` -/

instance : Std.Antisymm (fun a b : Int => a ≤ b) :=
  ⟨fun h h' => le_antisymm h h'⟩

/-- C5: every `day_intervals` row carries `target_days =
DATE_DIFF(DATE('2011-12-01'), DATE('2011-09-01'), DAY) = 91` — the same
constant for every customer — and `feature_days` equal to the number of
days from that customer's first purchase date (a clean-table date of the
customer that is at most all its other ones) to the feature-window end
2011-09-01. -/
theorem dayIntervals_target_91_feature_first_purchase
    (clean : List CleanRow) (d : DayInterval) (hd : d ∈ dayIntervals clean)
    (r : CleanRow) (hr : r ∈ clean) (hcid : r.customer_id = d.customer_id)
    (hfirst : ∀ r' ∈ clean, r'.customer_id = d.customer_id →
      r.order_date.toDays ≤ r'.order_date.toDays) :
    d.target_days = 91 ∧
    d.feature_days = some (dateDiff ⟨2011, 9, 1⟩ r.order_date) := by
  obtain ⟨cid, hcidmem, rfl⟩ := List.mem_map.mp hd
  refine ⟨show dateDiff ⟨2011, 12, 1⟩ ⟨2011, 9, 1⟩ = 91 by decide, ?_⟩
  show (((clean.filter (fun x => x.customer_id == cid)).map
      (fun x => x.order_date.toDays)).min?).map
        (fun m => (Date.mk 2011 9 1).toDays - m) =
    some (dateDiff ⟨2011, 9, 1⟩ r.order_date)
  have hmin : ((clean.filter (fun x => x.customer_id == cid)).map
      (fun x => x.order_date.toDays)).min? = some r.order_date.toDays := by
    apply (List.min?_eq_some_iff (fun a : Int => le_refl a)
      (fun a b : Int => min_choice a b)
      (fun a b c : Int => le_min_iff)).mpr
    constructor
    · exact List.mem_map_of_mem _
        (List.mem_filter.mpr ⟨hr, by simp [hcid]⟩)
    · intro b hb
      obtain ⟨r', hr', rfl⟩ := List.mem_map.mp hb
      have hr'2 := List.mem_filter.mp hr'
      exact hfirst r' hr'2.1 (by simpa using hr'2.2)
  rw [hmin]
  rfl

/-- Witness for C5: a two-order customer whose first purchase is
2011-06-10, with `feature_days = 83` and `target_days = 91`. -/
theorem dayIntervals_target_91_feature_first_purchase_witness :
    (⟨3, 91, some 83⟩ : DayInterval) ∈
      dayIntervals [⟨3, ⟨2011, 6, 10⟩⟩, ⟨3, ⟨2011, 8, 20⟩⟩] ∧
    (⟨3, ⟨2011, 6, 10⟩⟩ : CleanRow) ∈
      ([⟨3, ⟨2011, 6, 10⟩⟩, ⟨3, ⟨2011, 8, 20⟩⟩] : List CleanRow) ∧
    (DayInterval.mk 3 91 (some 83)).target_days = 91 ∧
    (DayInterval.mk 3 91 (some 83)).feature_days =
      some (dateDiff ⟨2011, 9, 1⟩ ⟨2011, 6, 10⟩) :=
  ⟨by decide, by decide,
    dayIntervals_target_91_feature_first_purchase
      [⟨3, ⟨2011, 6, 10⟩⟩, ⟨3, ⟨2011, 8, 20⟩⟩] ⟨3, 91, some 83⟩ (by decide)
      ⟨3, ⟨2011, 6, 10⟩⟩ (by decide) rfl (by decide)⟩

/-! ## C9: the LEFT JOIN and INNER JOIN baseline variants -/

/-- C9: when every customer of the ML table appears in `day_intervals`,
the LEFT JOIN used by the metrics query and the INNER JOIN used by the
per-customer query produce the same joined rows, hence the two
`predicted_clv` CTEs compute identical `predicted_monetary_value_3M`
and `target_monetary_value_3M` for every customer. -/
theorem left_inner_join_variants_agree
    (ml : List MLRow) (di : List DayInterval)
    (h : ∀ m ∈ ml, ∃ d ∈ di, d.customer_id = m.customer_id) :
    leftJoinRows ml di = innerJoinRows ml di ∧
    predictedClv (leftJoinRows ml di) = predictedClv (innerJoinRows ml di) := by
  have hjoin : leftJoinRows ml di = innerJoinRows ml di := by
    unfold leftJoinRows innerJoinRows
    apply List.flatMap_congr
    intro m hm
    obtain ⟨d, hdi, hdc⟩ := h m hm
    have hne : di.filter (fun x => x.customer_id == m.customer_id) ≠ [] :=
      List.ne_nil_of_mem
        (List.mem_filter.mpr ⟨hdi, by simp [hdc]⟩)
    unfold leftRowsOf
    simp [List.isEmpty_eq_false.mpr hne]
  exact ⟨hjoin, by rw [hjoin]⟩

/-- Witness for C9 at the concrete tables `exMl1`/`exClean1`. -/
theorem left_inner_join_variants_agree_witness :
    (∀ m ∈ exMl1, ∃ d ∈ dayIntervals exClean1,
      d.customer_id = m.customer_id) ∧
    (leftJoinRows exMl1 (dayIntervals exClean1) =
        innerJoinRows exMl1 (dayIntervals exClean1) ∧
      predictedClv (leftJoinRows exMl1 (dayIntervals exClean1)) =
        predictedClv (innerJoinRows exMl1 (dayIntervals exClean1))) :=
  ⟨by decide,
    left_inner_join_variants_agree exMl1 (dayIntervals exClean1) (by decide)⟩

/-! ## C2: MAE/MSE/RMSE relations -/

lemma two_mul_abs_mul_sum_le (a : ℚ) (l : List ℚ) :
    2 * |a| * (l.map (fun e => |e|)).sum ≤
      (l.length : ℚ) * a ^ 2 + (l.map (fun e => e ^ 2)).sum := by
  induction l with
  | nil => simp
  | cons e t ih =>
      simp only [List.map_cons, List.sum_cons, List.length_cons]
      push_cast
      have h2 : 2 * |a| * |e| ≤ a ^ 2 + e ^ 2 := by
        nlinarith [sq_nonneg (|a| - |e|), sq_abs a, sq_abs e]
      nlinarith [ih, h2]

/-- Cauchy–Schwarz for a list: the square of the sum of absolute values
is at most the length times the sum of squares. -/
lemma sq_sum_abs_le (l : List ℚ) :
    ((l.map (fun e => |e|)).sum) ^ 2 ≤
      (l.length : ℚ) * (l.map (fun e => e ^ 2)).sum := by
  induction l with
  | nil => simp
  | cons e t ih =>
      simp only [List.map_cons, List.sum_cons, List.length_cons]
      push_cast
      have haux := two_mul_abs_mul_sum_le e t
      have habs : |e| ^ 2 = e ^ 2 := sq_abs e
      nlinarith [ih, haux, habs]

lemma sum_abs_nonneg (l : List ℚ) : 0 ≤ (l.map (fun e => |e|)).sum := by
  apply List.sum_nonneg
  intro x hx
  obtain ⟨e, -, rfl⟩ := List.mem_map.mp hx
  exact abs_nonneg e

lemma sum_sq_nonneg (l : List ℚ) : 0 ≤ (l.map (fun e => e ^ 2)).sum := by
  apply List.sum_nonneg
  intro x hx
  obtain ⟨e, -, rfl⟩ := List.mem_map.mp hx
  exact sq_nonneg e

/-- The mean absolute value is at most the root mean square. -/
lemma mean_abs_le_sqrt_mean_sq (res : List ℚ) (h : res ≠ []) :
    (((res.map (fun e => |e|)).sum / (res.length : ℚ) : ℚ) : ℝ) ≤
      Real.sqrt
        (((res.map (fun e => e ^ 2)).sum / (res.length : ℚ) : ℚ) : ℝ) := by
  have hn : 0 < res.length := List.length_pos.mpr h
  have hn' : (0 : ℚ) < (res.length : ℚ) := by exact_mod_cast hn
  have hA : 0 ≤ (res.map (fun e => |e|)).sum := sum_abs_nonneg res
  have hQ : 0 ≤ (res.map (fun e => e ^ 2)).sum := sum_sq_nonneg res
  have hx : (0 : ℝ) ≤
      (((res.map (fun e => |e|)).sum / (res.length : ℚ) : ℚ) : ℝ) := by
    have : (0 : ℚ) ≤ (res.map (fun e => |e|)).sum / (res.length : ℚ) :=
      div_nonneg hA hn'.le
    exact_mod_cast this
  have hy : (0 : ℝ) ≤
      (((res.map (fun e => e ^ 2)).sum / (res.length : ℚ) : ℚ) : ℝ) := by
    have : (0 : ℚ) ≤ (res.map (fun e => e ^ 2)).sum / (res.length : ℚ) :=
      div_nonneg hQ hn'.le
    exact_mod_cast this
  rw [Real.le_sqrt hx hy]
  have key := sq_sum_abs_le res
  have hq : ((res.map (fun e => |e|)).sum / (res.length : ℚ)) ^ 2 ≤
      (res.map (fun e => e ^ 2)).sum / (res.length : ℚ) := by
    rw [div_pow, div_le_div_iff₀ (by positivity) hn']
    have hmul := mul_le_mul_of_nonneg_right key hn'.le
    calc ((res.map (fun e => |e|)).sum) ^ 2 * (res.length : ℚ) ≤
          ((res.length : ℚ) * (res.map (fun e => e ^ 2)).sum) *
            (res.length : ℚ) := hmul
      _ = (res.map (fun e => e ^ 2)).sum * (res.length : ℚ) ^ 2 := by ring
  exact_mod_cast hq

/-- `bqRound2` is monotone on nonnegative inputs. -/
lemma bqRound2_mono_nonneg {x y : ℝ} (hx : 0 ≤ x) (h : x ≤ y) :
    bqRound2 x ≤ bqRound2 y := by
  have hy : 0 ≤ y := le_trans hx h
  rw [bqRound2, bqRound2, if_pos hx, if_pos hy]
  have hf : (⌊x * 100 + 1 / 2⌋ : ℤ) ≤ ⌊y * 100 + 1 / 2⌋ :=
    Int.floor_mono (by linarith)
  have hf' : ((⌊x * 100 + 1 / 2⌋ : ℤ) : ℝ) ≤ ((⌊y * 100 + 1 / 2⌋ : ℤ) : ℝ) := by
    exact_mod_cast hf
  linarith

/-- C2: over any population with at least one non-NULL residual, the
baseline metrics satisfy `RMSE = SQRT(MSE)` exactly before the final
`ROUND(_, 2)` (hence also after it), and `MAE ≤ RMSE`, again both
before and after the rounding. -/
theorem baseline_rmse_sqrt_mse_and_mae_le
    (rows : List ClvRow) (h : residuals rows ≠ []) :
    baselineRMSE rows = Real.sqrt ((baselineMSE rows : ℚ) : ℝ) ∧
    bqRound2 (baselineRMSE rows) =
      bqRound2 (Real.sqrt ((baselineMSE rows : ℚ) : ℝ)) ∧
    ((baselineMAE rows : ℚ) : ℝ) ≤ baselineRMSE rows ∧
    bqRound2 ((baselineMAE rows : ℚ) : ℝ) ≤ bqRound2 (baselineRMSE rows) := by
  have hmae : ((baselineMAE rows : ℚ) : ℝ) ≤ baselineRMSE rows :=
    mean_abs_le_sqrt_mean_sq (residuals rows) h
  have hmae0 : (0 : ℝ) ≤ ((baselineMAE rows : ℚ) : ℝ) := by
    have hn : (0 : ℚ) ≤ ((residuals rows).length : ℚ) := by positivity
    have : (0 : ℚ) ≤ baselineMAE rows :=
      div_nonneg (sum_abs_nonneg (residuals rows)) hn
    exact_mod_cast this
  exact ⟨rfl, rfl, hmae, bqRound2_mono_nonneg hmae0 hmae⟩

/-- A one-row `predicted_clv` result with residual `20 - 100`. -/
def exRows : List ClvRow := [⟨7, some 20, 100⟩]

/-- Witness for C2 at the concrete one-residual population `exRows`. -/
theorem baseline_rmse_sqrt_mse_and_mae_le_witness :
    residuals exRows ≠ [] ∧
    (baselineRMSE exRows = Real.sqrt ((baselineMSE exRows : ℚ) : ℝ) ∧
      bqRound2 (baselineRMSE exRows) =
        bqRound2 (Real.sqrt ((baselineMSE exRows : ℚ) : ℝ)) ∧
      ((baselineMAE exRows : ℚ) : ℝ) ≤ baselineRMSE exRows ∧
      bqRound2 ((baselineMAE exRows : ℚ) : ℝ) ≤
        bqRound2 (baselineRMSE exRows)) :=
  ⟨by simp [show residuals exRows = [(20 : ℚ) - 100] from rfl],
    baseline_rmse_sqrt_mse_and_mae_le exRows
      (by simp [show residuals exRows = [(20 : ℚ) - 100] from rfl])⟩

/-! ## C10: the notebook's custom `rmse` metric -/

/-- The notebook's `rmse(y_true, y_pred) =
tf.sqrt(tf.reduce_mean(tf.square(y_pred - y_true)))`, over rational
vectors: elementwise squared difference, mean, square root. -/
noncomputable def rmse (y_true y_pred : List ℚ) : ℝ :=
  Real.sqrt
    (((List.zipWith (fun t p => (p - t) ^ 2) y_true y_pred).sum /
        ((List.zipWith (fun t p => (p - t) ^ 2) y_true y_pred).length : ℚ) :
      ℚ) : ℝ)

/-- C10: `rmse(y_true, y_pred)` equals the square root of the mean of
`(y_pred - y_true)²`, is symmetric in its two arguments, and is always
nonnegative.  (This holds for all input vectors, in particular for
equal-length ones.) -/
theorem rmse_sqrt_mean_symm_nonneg (y_true y_pred : List ℚ) :
    rmse y_true y_pred =
      Real.sqrt
        (((List.zipWith (fun p t => (p - t) ^ 2) y_pred y_true).sum /
            ((List.zipWith (fun p t => (p - t) ^ 2) y_pred y_true).length :
              ℚ) : ℚ) : ℝ) ∧
    rmse y_true y_pred = rmse y_pred y_true ∧
    0 ≤ rmse y_true y_pred := by
  refine ⟨?_, ?_, Real.sqrt_nonneg _⟩
  · rw [rmse, List.zipWith_comm (fun t p => (p - t) ^ 2) y_true y_pred]
  · rw [rmse, rmse,
      List.zipWith_comm_of_comm (fun t p => (p - t) ^ 2)
        (fun x y => by ring) y_true y_pred]

/-! ## C6: split assignment and split-based subset selection -/

/-- Modelled from the spec: the deterministic split assignment of
`utils/data_download.py`, which the notebook invokes but whose source is
not among the repository files.  Per §4.5 it is a fixed, customer-id-
keyed modulo (not random-seeded) partition into TRAIN/VALIDATE/TEST with
roughly 70/15/15 proportions. -/
def dataSplit (cid : Nat) : Split :=
  if cid % 100 < 70 then Split.TRAIN
  else if cid % 100 < 85 then Split.VALIDATE
  else Split.TEST

/-- Modelled from the spec: assigning splits to a customer list — a pure
function of the customer ids, so re-running reproduces it. -/
def assignSplits (cids : List Nat) : List (Nat × Split) :=
  cids.map (fun c => (c, dataSplit c))

/-- `clv_train = clv.loc[clv.data_split == 'TRAIN']`. -/
def clvTrain (clv : List MLRow) : List MLRow :=
  clv.filter (fun r => decide (r.data_split = Split.TRAIN))

/-- `clv_dev = clv.loc[clv.data_split == 'VALIDATE']`. -/
def clvDev (clv : List MLRow) : List MLRow :=
  clv.filter (fun r => decide (r.data_split = Split.VALIDATE))

/-- `clv_test = clv.loc[clv.data_split == 'TEST']`. -/
def clvTest (clv : List MLRow) : List MLRow :=
  clv.filter (fun r => decide (r.data_split = Split.TEST))

/-- C6: the split assignment maps every customer to exactly one of
TRAIN/VALIDATE/TEST; re-running the assignment on the same input yields
the same assignment; and the train/validate/test subsets selected from
the ML table by `data_split` value are pairwise disjoint. -/
theorem split_partition_deterministic_disjoint :
    (∀ cid : Nat,
      ([Split.TRAIN, Split.VALIDATE, Split.TEST].countP
        (fun s => decide (dataSplit cid = s))) = 1) ∧
    (∀ cids : List Nat, assignSplits cids = assignSplits cids) ∧
    (∀ clv : List MLRow,
      clvTrain clv ∩ clvDev clv = [] ∧
      clvTrain clv ∩ clvTest clv = [] ∧
      clvDev clv ∩ clvTest clv = []) := by
  refine ⟨?_, fun _ => rfl, ?_⟩
  · intro cid
    rw [dataSplit]
    split_ifs <;> decide
  · intro clv
    refine ⟨?_, ?_, ?_⟩ <;>
      · rw [List.inter_def, List.filter_eq_nil_iff]
        intro r hr hmem
        have h1 := List.mem_filter.mp hr
        have h2 := List.mem_filter.mp (List.elem_iff.mp hmem)
        have e1 := of_decide_eq_true h1.2
        have e2 := of_decide_eq_true h2.2
        rw [e1] at e2
        exact Split.noConfusion e2

/-! ## The feature-engineering pipeline (stages 2–4)

The data-processing script `utils/data_download.py` invoked by the
notebook is not among the repository files, so the following stages are
modelled from the specification (§4.1–§4.4): raw transactions, daily
aggregation by (customer, date), the validity filter, and the windowed
feature/target computation.  The claim-relevant fields are modelled;
`country` (carried along for the categorical feature) is omitted as no
claim concerns it. -/

/-- Modelled from the spec: a raw transaction line (§3 RawTransaction);
`utils/data_download.py` is not in the sources. -/
structure RawTransaction where
  invoice_id : String
  customer_id : Option Nat
  order_date : Date
  quantity : Int
  unit_price : ℚ
deriving DecidableEq

/-- Modelled from the spec: `total_quantity` of the (customer, date)
group — the sum of `quantity` over the group's lines (§4.2). -/
def totalQuantityFor (txs : List RawTransaction) (cid : Option Nat)
    (d : Date) : Int :=
  ((txs.filter (fun t => t.customer_id == cid && t.order_date == d)).map
    (fun t => t.quantity)).sum

/-- Modelled from the spec: `total_revenue` of the (customer, date)
group — the sum of `quantity × unit_price` over the group's lines
(§4.2). -/
def totalRevenueFor (txs : List RawTransaction) (cid : Option Nat)
    (d : Date) : ℚ :=
  ((txs.filter (fun t => t.customer_id == cid && t.order_date == d)).map
    (fun t => (t.quantity : ℚ) * t.unit_price)).sum

/-- Modelled from the spec: a daily order (§3 DailyOrder). -/
structure DailyOrder where
  customer_id : Option Nat
  order_date : Date
  total_quantity : Int
  total_revenue : ℚ
deriving DecidableEq

/-- Modelled from the spec: daily aggregation (§4.2) — one `DailyOrder`
per distinct (customer_id, date) key, a null customer id forming its own
group. -/
def dailyOrders (txs : List RawTransaction) : List DailyOrder :=
  ((txs.map (fun t => (t.customer_id, t.order_date))).dedup).map (fun k =>
    { customer_id := k.1
      order_date := k.2
      total_quantity := totalQuantityFor txs k.1 k.2
      total_revenue := totalRevenueFor txs k.1 k.2 })

/-- Modelled from the spec: the validity filter (§4.3) — keep orders
with a non-null customer id and strictly positive quantity and
revenue. -/
def validityFilter (os : List DailyOrder) : List DailyOrder :=
  os.filter (fun o =>
    o.customer_id.isSome && decide (0 < o.total_quantity) &&
      decide (0 < o.total_revenue))

/-- Modelled from the spec: a customer feature record (§3
CustomerFeatureRecord). -/
structure CustomerFeatureRecord where
  customer_id : Nat
  n_purchases : Nat
  avg_purchase_size : ℚ
  avg_purchase_revenue : ℚ
  customer_age : Int
  days_since_last_purchase : Int
  target_monetary_value : ℚ
deriving DecidableEq

/-- Modelled from the spec: a customer's orders inside the half-open
day-number window `[lo, hi)` (§4.4). -/
def ordersInWindow (os : List DailyOrder) (lo hi : Int) (cid : Nat) :
    List DailyOrder :=
  os.filter (fun o =>
    o.customer_id == some cid &&
      decide (lo ≤ o.order_date.toDays) && decide (o.order_date.toDays < hi))

/-- Modelled from the spec: the windowed feature/target computation for
one customer (§4.4), over day numbers with feature window `[ss, fe)`
and study window `[ss, se)`; `none` when the customer has no qualifying
order in the feature window. -/
def featureRecord (os : List DailyOrder) (ss fe se : Int) (cid : Nat) :
    Option CustomerFeatureRecord :=
  match ((ordersInWindow os ss fe cid).map
      (fun o => o.order_date.toDays)).min?,
    ((ordersInWindow os ss fe cid).map (fun o => o.order_date.toDays)).max?
  with
  | some mn, some mx =>
      some { customer_id := cid
             n_purchases := (ordersInWindow os ss fe cid).length
             avg_purchase_size :=
               (((ordersInWindow os ss fe cid).map
                 (fun o => (o.total_quantity : ℚ))).sum) /
                 ((ordersInWindow os ss fe cid).length : ℚ)
             avg_purchase_revenue :=
               (((ordersInWindow os ss fe cid).map
                 (fun o => o.total_revenue)).sum) /
                 ((ordersInWindow os ss fe cid).length : ℚ)
             customer_age := fe - mn
             days_since_last_purchase := fe - mx
             target_monetary_value :=
               ((ordersInWindow os ss se cid).map
                 (fun o => o.total_revenue)).sum }
  | _, _ => none

/-- Modelled from the spec: the full windowed computation (§4.4) — one
record per customer with at least one qualifying order in the feature
window. -/
def computeFeatures (os : List DailyOrder) (ss fe se : Int) :
    List CustomerFeatureRecord :=
  ((os.filterMap (fun o => o.customer_id)).dedup).filterMap
    (featureRecord os ss fe se)

/-! ## C8: daily aggregation is order-independent -/

/-- C8: for any permutation of the raw transaction rows, the daily
aggregation computes the same `total_quantity` and `total_revenue` for
every (customer_id, date) group. -/
theorem daily_aggregation_order_independent
    (l l' : List RawTransaction) (h : l.Perm l') :
    ∀ (cid : Option Nat) (d : Date),
      totalQuantityFor l cid d = totalQuantityFor l' cid d ∧
      totalRevenueFor l cid d = totalRevenueFor l' cid d := by
  intro cid d
  constructor
  · exact List.Perm.sum_eq (List.Perm.map _ (List.Perm.filter _ h))
  · exact List.Perm.sum_eq (List.Perm.map _ (List.Perm.filter _ h))

/-- Two raw transaction lines of one customer on one day. -/
def exTx : List RawTransaction :=
  [⟨"A100", some 1, ⟨2011, 6, 10⟩, 2, 25⟩,
   ⟨"A101", some 1, ⟨2011, 6, 10⟩, 1, 30⟩]

/-- The same two lines in the opposite order. -/
def exTxSwapped : List RawTransaction :=
  [⟨"A101", some 1, ⟨2011, 6, 10⟩, 1, 30⟩,
   ⟨"A100", some 1, ⟨2011, 6, 10⟩, 2, 25⟩]

/-- Witness for C8 at a concrete two-line permutation. -/
theorem daily_aggregation_order_independent_witness :
    exTx.Perm exTxSwapped ∧
    (totalQuantityFor exTx (some 1) ⟨2011, 6, 10⟩ =
        totalQuantityFor exTxSwapped (some 1) ⟨2011, 6, 10⟩ ∧
      totalRevenueFor exTx (some 1) ⟨2011, 6, 10⟩ =
        totalRevenueFor exTxSwapped (some 1) ⟨2011, 6, 10⟩) :=
  ⟨List.Perm.swap _ _ _,
    daily_aggregation_order_independent exTx exTxSwapped
      (List.Perm.swap _ _ _) (some 1) ⟨2011, 6, 10⟩⟩

/-! ## C7: invariants of the customer feature records -/

/-- C7: every record the windowed computation produces from
validity-filtered daily orders has a nonnegative recency, a customer age
of at least the recency, and a nonnegative monetary target. -/
theorem customer_feature_record_invariants
    (os : List DailyOrder) (ss fe se : Int) (r : CustomerFeatureRecord)
    (hr : r ∈ computeFeatures (validityFilter os) ss fe se) :
    0 ≤ r.days_since_last_purchase ∧
    r.days_since_last_purchase ≤ r.customer_age ∧
    0 ≤ r.target_monetary_value := by
  obtain ⟨cid, hcid, hrec⟩ := List.mem_filterMap.mp hr
  unfold featureRecord at hrec
  split at hrec
  case _ mn mx hmn hmx =>
      injection hrec with hrec
      subst hrec
      have hmxmem := List.max?_mem (fun a b : Int => max_choice a b) hmx
      obtain ⟨o, how, heq⟩ := List.mem_map.mp hmxmem
      have hofilter := (List.mem_filter.mp how).2
      have hobound : o.order_date.toDays < fe := by
        simp only [Bool.and_eq_true, decide_eq_true_eq] at hofilter
        exact hofilter.2
      have hmxlt : mx < fe := heq ▸ hobound
      have hmnle : mn ≤ mx :=
        ((List.le_min?_iff (fun a b c : Int => le_min_iff) hmn).mp
          (le_refl mn)) mx hmxmem
      refine ⟨by simp only; omega, by simp only; omega, ?_⟩
      show 0 ≤ ((ordersInWindow (validityFilter os) ss se cid).map
        (fun o => o.total_revenue)).sum
      apply List.sum_nonneg
      intro x hx
      obtain ⟨o', ho', rfl⟩ := List.mem_map.mp hx
      have ho'v : o' ∈ validityFilter os :=
        List.mem_filter.mp ho' |>.1
      have hcond := (List.mem_filter.mp ho'v).2
      simp only [Bool.and_eq_true, decide_eq_true_eq] at hcond
      exact le_of_lt hcond.2
  case _ =>
      exact Option.noConfusion hrec

/-- Three daily orders of one customer: two in the feature window
(2011-06-10, revenue 50; 2011-08-20, revenue 70) and one in the target
window (2011-10-03, revenue 40) — the specification's §8 scenario. -/
def exOrders : List DailyOrder :=
  [⟨some 2, ⟨2011, 6, 10⟩, 3, 50⟩,
   ⟨some 2, ⟨2011, 8, 20⟩, 2, 70⟩,
   ⟨some 2, ⟨2011, 10, 3⟩, 1, 40⟩]

/-- Witness for C7: the record computed from `exOrders` over the
windows [2011-06-01, 2011-09-01) and [2011-06-01, 2011-12-01) (day
numbers 15126, 15218, 15309) is `n_purchases = 2`,
`avg_purchase_revenue = 60`, `customer_age = 83`,
`days_since_last_purchase = 12`, `target_monetary_value = 160`, and it
satisfies the invariants. -/
theorem customer_feature_record_invariants_witness :
    (⟨2, 2, 5 / 2, 60, 83, 12, 160⟩ : CustomerFeatureRecord) ∈
      computeFeatures (validityFilter exOrders) 15126 15218 15309 ∧
    (0 ≤ (CustomerFeatureRecord.mk 2 2 (5 / 2) 60 83 12
        160).days_since_last_purchase ∧
      (CustomerFeatureRecord.mk 2 2 (5 / 2) 60 83 12
          160).days_since_last_purchase ≤
        (CustomerFeatureRecord.mk 2 2 (5 / 2) 60 83 12 160).customer_age ∧
      0 ≤ (CustomerFeatureRecord.mk 2 2 (5 / 2) 60 83 12
        160).target_monetary_value) := by
  have hmn : (([⟨some 2, ⟨2011, 6, 10⟩, 3, 50⟩,
      ⟨some 2, ⟨2011, 8, 20⟩, 2, 70⟩] :
      List DailyOrder).map (fun o => o.order_date.toDays)).min? =
      some 15135 := by decide
  have hmx : (([⟨some 2, ⟨2011, 6, 10⟩, 3, 50⟩,
      ⟨some 2, ⟨2011, 8, 20⟩, 2, 70⟩] :
      List DailyOrder).map (fun o => o.order_date.toDays)).max? =
      some 15206 := by decide
  have hfr : featureRecord (validityFilter exOrders) 15126 15218 15309 2 =
      some ⟨2, 2, 5 / 2, 60, 83, 12, 160⟩ := by
    have hw : ordersInWindow (validityFilter exOrders) 15126 15218 2 =
        [⟨some 2, ⟨2011, 6, 10⟩, 3, 50⟩,
         ⟨some 2, ⟨2011, 8, 20⟩, 2, 70⟩] := rfl
    have hw2 : ordersInWindow (validityFilter exOrders) 15126 15309 2 =
        exOrders := rfl
    unfold featureRecord
    rw [hw, hw2, hmn, hmx]
    simp only [CustomerFeatureRecord.mk.injEq, Option.some.injEq]
    norm_num [exOrders]
  have hmem : (⟨2, 2, 5 / 2, 60, 83, 12, 160⟩ : CustomerFeatureRecord) ∈
      computeFeatures (validityFilter exOrders) 15126 15218 15309 :=
    List.mem_filterMap.mpr ⟨2, by decide, hfr⟩
  exact ⟨hmem,
    customer_feature_record_invariants exOrders 15126 15218 15309 _ hmem⟩

end OnlineRetailCLV
